import Mathlib

/-!
# paypayopa-sdk-go: request signing, request building, dispatch and callback tokens

A shallow embedding of `paypay/client.go` and `paypay/account_link.go`.

Go strings are Lean strings, byte slices are lists of bytes, Go's `(value, error)`
results are `Except` values or pairs with an optional error.  Everything the package
imports from outside the repository (hash functions, `net/url`, `net/http`,
`encoding/json`, `go-querystring`) is collected in the record `Lib` and passed as a
parameter; `encoding/base64` and `strings` are small enough to be written out.  The
token verifier of `jwt-go` is written out after the specification, over the JSON decoders
and the MAC of `Lib`.  The nonce (`uuid.New().String()`), the epoch string
(`strconv.FormatInt(time.Now().Unix(), 10)`) and the current time of a call are arguments.
-/

namespace paypay

/-! ## Basic data -/

/-- Go byte slices. -/
abbrev Bytes := List UInt8

/-- Go error values. -/
abbrev Error := String

/-- The conversion of a string to its bytes. -/
def toBytes (s : String) : Bytes := s.toUTF8.data.toList

/-- The value of an interface argument: the nil interface, a nil pointer of some
pointer type, or any other value. -/
inductive Body (V : Type) where
  | nil : Body V
  | nilPtr : Body V
  | val (v : V) : Body V

/-- The comparison of an interface value against nil. -/
def Body.isNil {V : Type} : Body V → Bool
  | .nil => true
  | _ => false

/-- The test made through reflection in mergeQuery: the kind is a pointer and the pointer is nil. -/
def Body.isNilPtr {V : Type} : Body V → Bool
  | .nilPtr => true
  | _ => false

/-- A request as built by net/http: method, absolute URL, header fields and body. -/
structure Request where
  method : String
  url : String
  header : List (String × String)
  body : Option Bytes
deriving DecidableEq, Repr

/-- A response as received by net/http. -/
structure Response where
  statusCode : Nat
  header : List (String × String)
  body : Bytes
deriving DecidableEq, Repr

/-- The observable state of a context: whether its Done channel is closed and what Err returns. -/
structure Context where
  done : Bool
  err : Option Error
deriving DecidableEq, Repr

/-- The standard claims embedded in ResponseToken. -/
structure StandardClaims where
  audience : String
  expiresAt : Int
  id : String
  issuedAt : Int
  issuer : String
  notBefore : Int
  subject : String
deriving DecidableEq, Repr

/-- The claims of a callback token. -/
structure ResponseToken where
  standardClaims : StandardClaims
  result : String
  profileIdentifier : String
  nonce : String
  userAuthorizationID : String
  referenceID : String
deriving DecidableEq, Repr

/-- The request of the account link operation. -/
structure CreateAccountLinkQRCodeRequest where
  scopes : List String
  nonce : String
  redirectType : String
  redirectURL : String
  referenceID : String
  phoneNumber : String
  deviceID : String
  userAgent : String
deriving DecidableEq, Repr

/-- The resultInfo part of a response. -/
structure ResultInfo where
  code : String
  message : String
  codeID : String
deriving DecidableEq, Repr

/-- The response of the account link operation; new(...) gives the value with empty fields. -/
structure CreateAccountLinkQRCodeResponse where
  resultInfo : ResultInfo
  linkQRCodeURL : String
deriving DecidableEq, Repr

/-- The value new(CreateAccountLinkQRCodeResponse) points to. -/
def CreateAccountLinkQRCodeResponse.zero : CreateAccountLinkQRCodeResponse :=
  { resultInfo := { code := "", message := "", codeID := "" }, linkQRCodeURL := "" }

/-- The functions the package calls outside the repository.
`U` is a parsed URL, `H` an HTTP client, `V` a request value, `T` a decoding target,
`W` a byte sink, `J` a decoded token header. -/
structure Lib (U H V T W J : Type) where
  /-- Digest of crypto/md5. -/
  md5 : Bytes → Bytes
  /-- Tag of crypto/hmac over crypto/sha256: key, then message. -/
  hmacSha256 : Bytes → Bytes → Bytes
  /-- Function url.Parse. -/
  urlParse : String → Except Error U
  /-- Method URL.String. -/
  urlString : U → String
  /-- Assignment to the RawQuery field. -/
  urlSetRawQuery : U → String → U
  /-- Method URL.Parse of a possibly nil receiver: resolves a reference against it. -/
  urlResolve : Option U → String → Except Error U
  /-- The encoded form of query.Values(q). -/
  queryValues : Body V → Except Error String
  /-- Function json.Marshal on a value that is neither nil nor a nil pointer. -/
  marshalValue : V → Except Error Bytes
  /-- The method and the URL that http.NewRequest stores for a method and a URL string, after
  its checks: the method as validated (the empty one stands for GET) and the URL as parsed
  and written again. -/
  requestLine : String → String → Except Error (String × String)
  /-- The value http.DefaultClient. -/
  defaultClient : H
  /-- Method Client.Do of net/http on a request bound to a context. -/
  clientDo : H → Request → Context → Except Error Response
  /-- Function io.Copy from a response body into a sink: the sink afterwards and the error. -/
  copy : W → Response → W × Option Error
  /-- Decoding of a response body as JSON into a target: the target afterwards and the error. -/
  jsonDecode : Response → T → T × Option Error
  /-- Decoding of the bytes of a token header as JSON. -/
  jsonHeader : Bytes → Except Error J
  /-- The algorithm a decoded token header declares, none when it declares no name. -/
  headerAlg : J → Option String
  /-- Decoding of the bytes of a claims segment as JSON into a fresh ResponseToken. -/
  jsonClaims : Bytes → Except Error ResponseToken
  /-- The keyed MAC of the signature algorithm of a name: key, then message; none when no
  algorithm of that name verifies with a key of bytes. -/
  tokenMac : String → Option (Bytes → Bytes → Bytes)

/-! ## encoding/base64, standard encoding -/

/-- The alphabet of the standard encoding. -/
def encodeStd : List Char :=
  "ABCDEFGHIJKLMNOPQRSTUVWXYZabcdefghijklmnopqrstuvwxyz0123456789+/".data

/-- The character of a 6-bit value. -/
def stdChar (n : Nat) : Char := encodeStd.getD (n % 64) 'A'

/-- The characters of the padded standard encoding of a byte sequence. -/
def encodeChars : Bytes → List Char
  | a :: b :: c :: rest =>
    let v := a.toNat * 65536 + b.toNat * 256 + c.toNat
    stdChar (v / 262144) :: stdChar (v / 4096) :: stdChar (v / 64) :: stdChar v ::
      encodeChars rest
  | [a, b] =>
    let v := a.toNat * 65536 + b.toNat * 256
    [stdChar (v / 262144), stdChar (v / 4096), stdChar (v / 64), '=']
  | [a] =>
    let v := a.toNat * 65536
    [stdChar (v / 262144), stdChar (v / 4096), '=', '=']
  | [] => []

/-- Method base64.StdEncoding.EncodeToString. -/
def EncodeToString (src : Bytes) : String := String.mk (encodeChars src)

/-! ## strings -/

/-- Function strings.Join. -/
def stringsJoin (elems : List String) (sep : String) : String := sep.intercalate elems

/-- Function strings.Split for a separator of one character. -/
def stringsSplit (s : String) (sep : Char) : List String :=
  (s.data.splitOn sep).map String.mk

/-! ## client.go -/

/-- The production endpoint. -/
def APIEndpointProduction : String := "https://api.paypay.ne.jp"

/-- The sandbox endpoint. -/
def APIEndpointSandbox : String := "https://stg-api.sandbox.paypay.ne.jp"

/-- The client. -/
structure Client (U H : Type) where
  apiKey : String
  apiSecret : String
  assumeMerchant : String
  endpoint : Option U
  httpClient : H
deriving DecidableEq

section
variable {U H V T W J : Type}

/-- The pair (authContentType, bodyHashPayload) chosen by the switch of authHeader. -/
def bodyHash (lib : Lib U H V T W J) (contentType : String) (body : Bytes) : String × String :=
  if body.length = 0 then
    ("empty", "empty")
  else
    (contentType, EncodeToString (lib.md5 (toBytes contentType ++ body)))

/-- Method Client.authHeader, for the nonce and epoch string of the call. -/
def Client.authHeader (lib : Lib U H V T W J) (c : Client U H) (nonce epoch : String)
    (method path contentType : String) (body : Bytes) : String :=
  let authContentType := (bodyHash lib contentType body).1
  let bodyHashPayload := (bodyHash lib contentType body).2
  let signatureList :=
    stringsJoin [path, method, nonce, epoch, authContentType, bodyHashPayload] "\n"
  let signatureHashPayload :=
    EncodeToString (lib.hmacSha256 (toBytes c.apiSecret) (toBytes signatureList))
  "hmac OPA-Auth:" ++
    stringsJoin [c.apiKey, signatureHashPayload, nonce, epoch, bodyHashPayload] ":"


/-- A client option: it may change the client, fail, and act on the surrounding state `S`. -/
abbrev ClientOption (U H S : Type) := Client U H → S → (Option Error × Client U H) × S

/-- The loop of New over its options: stops at the first option that fails. -/
def runOptions {S : Type} :
    List (ClientOption U H S) → Client U H → S → Except Error (Client U H) × S
  | [], c, s => (.ok c, s)
  | option :: rest, c, s =>
    match option c s with
    | ((some err, _), s1) => (.error err, s1)
    | ((none, c1), s1) => runOptions rest c1 s1

/-- Function New: the client or the error, and the surrounding state afterwards. -/
def New {S : Type} (lib : Lib U H V T W J) (apiKey apiSecret assumeMerchant : String)
    (options : List (ClientOption U H S)) (s : S) : Except Error (Client U H) × S :=
  if apiKey = "" then
    (.error "missing api key", s)
  else if apiSecret = "" then
    (.error "missing api secret", s)
  else if assumeMerchant = "" then
    (.error "missing merchant", s)
  else
    let c : Client U H :=
      { apiKey := apiKey, apiSecret := apiSecret, assumeMerchant := "",
        endpoint := none, httpClient := lib.defaultClient }
    match runOptions options c s with
    | (.error err, s1) => (.error err, s1)
    | (.ok c, s1) =>
      match c.endpoint with
      | some _ => (.ok c, s1)
      | none =>
        match lib.urlParse APIEndpointProduction with
        | .error err => (.error err, s1)
        | .ok u => (.ok { c with endpoint := some u }, s1)

/-- Function WithHTTPClient. -/
def WithHTTPClient {S : Type} (h : H) : ClientOption U H S :=
  fun client s => ((none, { client with httpClient := h }), s)

/-- Function WithEndpoint. -/
def WithEndpoint {S : Type} (lib : Lib U H V T W J) (endpoint : String) : ClientOption U H S :=
  fun client s =>
    match lib.urlParse endpoint with
    | .error err => ((some err, client), s)
    | .ok u => ((none, { client with endpoint := some u }), s)

/-- Function WithSandbox. -/
def WithSandbox {S : Type} (lib : Lib U H V T W J) : ClientOption U H S :=
  WithEndpoint lib APIEndpointSandbox

/-- Method Client.mergeQuery: the returned string and error. -/
def Client.mergeQuery (lib : Lib U H V T W J) (_c : Client U H) (path : String) (q : Body V) :
    String × Option Error :=
  if q.isNilPtr then
    (path, none)
  else
    match lib.urlParse path with
    | .error err => (path, some err)
    | .ok u =>
      match lib.queryValues q with
      | .error err => (path, some err)
      | .ok qs => (lib.urlString (lib.urlSetRawQuery u qs), none)

/-- The verbs of net/http used by NewRequest. -/
def MethodGet : String := "GET"

/-- The verb DELETE. -/
def MethodDelete : String := "DELETE"

/-- The verb POST. -/
def MethodPost : String := "POST"

/-- The verb PUT. -/
def MethodPut : String := "PUT"

/-- Function json.Marshal: nil and nil pointers are written as null. -/
def jsonMarshal (lib : Lib U H V T W J) : Body V → Except Error Bytes
  | .nil => .ok (toBytes "null")
  | .nilPtr => .ok (toBytes "null")
  | .val v => lib.marshalValue v

/-- Function http.NewRequest: after its checks, a request with the method and URL as net/http
stores them, no header fields and the given body. -/
def httpNewRequest (lib : Lib U H V T W J) (method url : String) (body : Option Bytes) :
    Except Error Request :=
  match lib.requestLine method url with
  | .error err => .error err
  | .ok (m, u) => .ok { method := m, url := u, header := [], body := body }

/-- Method Header.Set of a request: the field replaces any earlier one of that name.
Set and Get put the name in the same canonical form, so names are compared as written. -/
def Request.setHeader (req : Request) (key value : String) : Request :=
  { req with header := (key, value) :: req.header.filter (fun kv => kv.1 != key) }

/-- Method Header.Get of a request, none when the field is absent. -/
def Request.getHeader (req : Request) (key : String) : Option String :=
  req.header.lookup key

/-- The fixed content type of NewRequest. -/
def contentType : String := "application/json"

/-- The first switch of NewRequest: the path after query merging. -/
def Client.dispatchPath (lib : Lib U H V T W J) (c : Client U H) (method path : String)
    (body : Body V) : Except Error String :=
  if method = MethodGet ∨ method = MethodDelete then
    if !body.isNil then
      match c.mergeQuery lib path body with
      | (_, some err) => .error err
      | (merged, none) => .ok merged
    else
      .ok path
  else
    .ok path

/-- The second switch of NewRequest: the serialised body, none when no body is attached. -/
def requestBody (lib : Lib U H V T W J) (method : String) (body : Body V) :
    Except Error (Option Bytes) :=
  if method = MethodPost ∨ method = MethodPut then
    if !body.isNil then
      match jsonMarshal lib body with
      | .error err => .error err
      | .ok b => .ok (some b)
    else
      .ok none
  else
    .ok none

/-- The expression strings.Split(path, "?")[0]. -/
def signingPath (path : String) : String := (stringsSplit path '?').headD ""

/-- Method Client.NewRequest, for the nonce and epoch string of the call. -/
def Client.NewRequest (lib : Lib U H V T W J) (c : Client U H) (nonce epoch : String)
    (method path : String) (body : Body V) : Except Error Request :=
  match c.dispatchPath lib method path body with
  | .error err => .error err
  | .ok path =>
    match lib.urlResolve c.endpoint path with
    | .error err => .error err
    | .ok u =>
      match requestBody lib method body with
      | .error err => .error err
      | .ok reqBody =>
        match httpNewRequest lib method (lib.urlString u) reqBody with
        | .error err => .error err
        | .ok req =>
          let req :=
            if c.assumeMerchant ≠ "" then
              req.setHeader "X-ASSUME-MERCHANT" c.assumeMerchant
            else req
          let req := req.setHeader "Content-Type" contentType
          .ok (req.setHeader "Authorization"
            (c.authHeader lib nonce epoch method (signingPath path) contentType
              (reqBody.getD [])))

/-- The destination argument of Do: nil, a byte sink, or a decoding target. -/
inductive Dest (T W : Type) where
  | nil : Dest T W
  | writer (w : W) : Dest T W
  | target (t : T) : Dest T W

/-- The value a decoding target holds, given what it held before the call. -/
def Dest.pointee {T W : Type} (d : Dest T W) (before : T) : T :=
  match d with
  | .target t => t
  | _ => before

/-- What a call of Do leaves: the two returned values and the destination afterwards. -/
structure DoResult (T W : Type) where
  resp : Option Response
  err : Option Error
  dest : Dest T W

/-- Method Client.Do.  The context is read where the select reads it, after the transport
call has failed; the deferred close of the response body changes none of the returned
values and is left out. -/
def Client.Do (lib : Lib U H V T W J) (c : Client U H) (ctx : Context) (req : Request)
    (v : Dest T W) : DoResult T W :=
  match lib.clientDo c.httpClient req ctx with
  | .error err =>
    if ctx.done then
      { resp := none, err := ctx.err, dest := v }
    else
      { resp := none, err := some err, dest := v }
  | .ok resp =>
    match v with
    | .nil => { resp := some resp, err := none, dest := .nil }
    | .writer w =>
      let w1 := (lib.copy w resp).1
      { resp := some resp, err := none, dest := .writer w1 }
    | .target t =>
      match lib.jsonDecode resp t with
      | (t1, some err) => { resp := some resp, err := some err, dest := .target t1 }
      | (t1, none) => { resp := some resp, err := none, dest := .target t1 }

end

/-! ## account_link.go -/

section
variable {U H W J : Type}

/-- The interface value of a request pointer: a nil pointer stays a typed nil. -/
def bodyOfPointer (req : Option CreateAccountLinkQRCodeRequest) :
    Body CreateAccountLinkQRCodeRequest :=
  match req with
  | none => .nilPtr
  | some r => .val r

/-- Method Client.CreateAccountLinkQRCode: the typed response, the HTTP response, the error. -/
def Client.CreateAccountLinkQRCode
    (lib : Lib U H CreateAccountLinkQRCodeRequest CreateAccountLinkQRCodeResponse W J)
    (c : Client U H) (nonce epoch : String) (ctx : Context)
    (req : Option CreateAccountLinkQRCodeRequest) :
    Option CreateAccountLinkQRCodeResponse × Option Response × Option Error :=
  match c.NewRequest lib nonce epoch MethodPost "/v1/qr/sessions" (bodyOfPointer req) with
  | .error err => (none, none, some err)
  | .ok httpReq =>
    let resp := CreateAccountLinkQRCodeResponse.zero
    let r := c.Do lib ctx httpReq (.target resp)
    match r.err with
    | some err => (none, r.resp, some err)
    | none => (some (r.dest.pointee resp), r.resp, none)

end

/-! ## encoding/base64, decoding -/

/-- The alphabet of the URL encoding. -/
def encodeURL : List Char :=
  "ABCDEFGHIJKLMNOPQRSTUVWXYZabcdefghijklmnopqrstuvwxyz0123456789-_".data

/-- The 6-bit value of a character of an alphabet. -/
def decodeMap (alphabet : List Char) (ch : Char) : Option Nat :=
  if alphabet.indexOf ch < 64 then some (alphabet.indexOf ch) else none

/-- The line breaks the decoder skips. -/
def isNewline (ch : Char) : Bool := ch == '\n' || ch == '\r'

/-- The error of the decoder (the input offset it carries is left out). -/
def corruptInput : Error := "illegal base64 data"

/-- The bytes of a quantum of two to four 6-bit values. -/
def quantumBytes (q : List Nat) : Bytes :=
  let v := q.getD 0 0 * 262144 + q.getD 1 0 * 4096 + q.getD 2 0 * 64 + q.getD 3 0
  ([v / 65536 % 256, v / 256 % 256, v % 256].take (q.length - 1)).map UInt8.ofNat

/-- The decoder loop over an alphabet: the characters left and the 6-bit values of the open
quantum.
Line feeds and carriage returns are skipped wherever they stand; padding is accepted only
to complete a quantum of two or three values, and only line breaks may follow it; the
unused low bits of a padded quantum are not checked (the encoding is not strict). -/
def decodeFrom (alphabet : List Char) : List Char → List Nat → Except Error Bytes
  | [], q => if q.length = 0 then .ok [] else .error corruptInput
  | ch :: rest, q =>
    match decodeMap alphabet ch with
    | some v =>
      if q.length = 3 then
        match decodeFrom alphabet rest [] with
        | .error err => .error err
        | .ok out => .ok (quantumBytes (q ++ [v]) ++ out)
      else
        decodeFrom alphabet rest (q ++ [v])
    | none =>
      if isNewline ch then
        decodeFrom alphabet rest q
      else if ch ≠ '=' then
        .error corruptInput
      else if q.length = 2 then
        match rest.dropWhile isNewline with
        | [] => .error corruptInput
        | d :: ds =>
          if d ≠ '=' then .error corruptInput
          else if (ds.dropWhile isNewline).isEmpty then .ok (quantumBytes q)
          else .error corruptInput
      else if q.length = 3 then
        if (rest.dropWhile isNewline).isEmpty then .ok (quantumBytes q)
        else .error corruptInput
      else
        .error corruptInput

/-- Method base64.StdEncoding.DecodeString. -/
def DecodeString (s : String) : Except Error Bytes := decodeFrom encodeStd s.data []

/-- Method base64.URLEncoding.DecodeString. -/
def URLDecodeString (s : String) : Except Error Bytes := decodeFrom encodeURL s.data []

/-! ## The token verifier

The verifier behind ParseResponseToken is the library jwt-go, whose code is not among the
files of the repository.  It is written here after section 4.4 of the specification: the
token is split into header, claims and signature segments; a malformed segment (wrong
segment count, bad base64, bad JSON) fails; the signature is recomputed over header and
claims with the verification key and the algorithm the header declares, and a mismatch
fails; the time-bound standard claims are validated when present; on success the decoded
claims are returned. -/

/-- Modelled from the spec: the decoding of one segment of a compact token, "base64url-encoded"
in the words of the glossary; the padding the compact form leaves out is put back first. -/
def DecodeSegment (seg : String) : Except Error Bytes :=
  if seg.utf8ByteSize % 4 = 0 then URLDecodeString seg
  else URLDecodeString (seg ++ String.mk (List.replicate (4 - seg.utf8ByteSize % 4) '='))

/-- Modelled from the spec: "validate standard time-bound claims (not-before / expiry) if
present": a claim that is 0 is absent; the expiry must not lie before the current time and
the not-before time must not lie after it; the issued-at time, time-bound as well, is
held to the same bound as the not-before time. -/
def claimsInWindow (now : Int) (sc : StandardClaims) : Bool :=
  (sc.expiresAt == 0 || decide (now ≤ sc.expiresAt)) &&
  (sc.issuedAt == 0 || decide (sc.issuedAt ≤ now)) &&
  (sc.notBefore == 0 || decide (sc.notBefore ≤ now))

/-- Modelled from the spec: "recompute the expected signature over header+claims using the
verification key and the algorithm declared in the token header; fail on mismatch": the
signature segment must decode to the MAC, under the key, of the header segment, a dot and
the claims segment. -/
def verifySignature (mac : Bytes → Bytes → Bytes) (key : Bytes) (header claims signature : String) :
    Option Error :=
  match DecodeSegment signature with
  | .error err => some err
  | .ok sig =>
    if sig = mac key (toBytes (header ++ "." ++ claims)) then none
    else some "signature is invalid"

section
variable {U H V T W J : Type}

/-- Modelled from the spec: function jwt.ParseWithClaims for a ResponseToken, at the current
time `now`.  The token must have three segments; header and claims must decode from
base64url and from JSON; the header must declare an algorithm that verifies with a key of
bytes; the key function must give a key; signature and time window must both hold.  The
key function is asked only once the segments have been decoded, and its argument, the
parsed token, is the decoded claims here. -/
def jwtParseWithClaims (lib : Lib U H V T W J) (now : Int) (tokenString : String)
    (keyFunc : ResponseToken → Except Error Bytes) : Except Error ResponseToken :=
  match stringsSplit tokenString '.' with
  | [header, claims, signature] =>
    match DecodeSegment header with
    | .error err => .error err
    | .ok headerBytes =>
      match lib.jsonHeader headerBytes with
      | .error err => .error err
      | .ok decoded =>
        match DecodeSegment claims with
        | .error err => .error err
        | .ok claimBytes =>
          match lib.jsonClaims claimBytes with
          | .error err => .error err
          | .ok token =>
            match lib.headerAlg decoded with
            | none => .error "signing method (alg) is unspecified."
            | some alg =>
              match lib.tokenMac alg with
              | none => .error "signing method (alg) is unavailable."
              | some mac =>
                match keyFunc token with
                | .error err => .error err
                | .ok key =>
                  match verifySignature mac key header claims signature with
                  | some err => .error err
                  | none =>
                    if claimsInWindow now token.standardClaims then .ok token
                    else .error "token is expired or not valid yet"
  | _ => .error "token contains an invalid number of segments"

/-- Method Client.ParseResponseToken, at the current time `now`: the key function returns
the api secret decoded from base64, whatever the token. -/
def Client.ParseResponseToken (lib : Lib U H V T W J) (c : Client U H) (now : Int)
    (tokenString : String) : Except Error ResponseToken :=
  jwtParseWithClaims lib now tokenString (fun _ => DecodeString c.apiSecret)

end

/-! ## A small instance of the library record, to evaluate the definitions -/

deriving instance DecidableEq for Except

/-- The claims the stub library returns for the key it accepts. -/
def stubClaims : ResponseToken :=
  { standardClaims :=
      { audience := "merchant", expiresAt := 4102444800, id := "", issuedAt := 0,
        issuer := "paypay.ne.jp", notBefore := 0, subject := "" },
    result := "succeeded", profileIdentifier := "*******5678", nonce := "n-1",
    userAuthorizationID := "ua-1", referenceID := "ref-1" }

/-- A library in which URLs are strings, digests are short fixed functions of the input
lengths, GET requests fail in transport, a request with body "null" is answered by a page
that is not JSON and fails to decode, a non-empty response body fails to copy, and every
token header declares HS256 and every claims segment holds the stub claims. -/
def stubLib :
    Lib String Unit CreateAccountLinkQRCodeRequest CreateAccountLinkQRCodeResponse Bytes String where
  md5 := fun b => [UInt8.ofNat b.length]
  hmacSha256 := fun k m => [UInt8.ofNat k.length, UInt8.ofNat m.length]
  urlParse := fun s => if s = "" then .error "empty url" else .ok s
  urlString := fun u => u
  urlSetRawQuery := fun u q => u ++ "?" ++ q
  urlResolve := fun base ref =>
    match base with
    | some b => .ok (b ++ ref)
    | none => .error "nil endpoint"
  queryValues := fun _ => .ok "x=1"
  marshalValue := fun _ => .ok (toBytes "{}")
  requestLine := fun m u => .ok (if m = "" then "GET" else m, u)
  defaultClient := ()
  clientDo := fun _ req _ =>
    if req.method = "GET" then .error "connection refused"
    else if req.body = some (toBytes "null") then
      .ok { statusCode := 502, header := [], body := toBytes "bad gateway" }
    else .ok { statusCode := 201, header := [], body := toBytes "{}" }
  copy := fun w resp => (w ++ resp.body, if resp.body.length = 0 then none else some "short write")
  jsonDecode := fun resp t =>
    if resp.body = toBytes "{}" then (t, none) else (t, some "invalid character")
  jsonHeader := fun b => if b = toBytes "{}" then .ok "HS256" else .error "invalid character"
  headerAlg := fun j => some j
  jsonClaims := fun b => if b = toBytes "{}" then .ok stubClaims else .error "invalid character"
  tokenMac := fun alg =>
    if alg = "HS256" then some (fun k m => [UInt8.ofNat k.length, UInt8.ofNat m.length])
    else none

/-- A client for the stub library. -/
def stubClient (apiKey apiSecret assumeMerchant : String) : Client String Unit :=
  { apiKey := apiKey, apiSecret := apiSecret, assumeMerchant := assumeMerchant,
    endpoint := some "https://api.paypay.ne.jp", httpClient := () }

/-- A request value for the stub library. -/
def stubRequest : CreateAccountLinkQRCodeRequest :=
  { scopes := ["continuous_payments"], nonce := "n-1", redirectType := "WEB_LINK",
    redirectURL := "https://example.com/confirm", referenceID := "ref-1",
    phoneNumber := "", deviceID := "", userAgent := "" }

/-- A GET request, which the stub transport refuses. -/
def stubGet : Request :=
  { method := "GET", url := "https://api.paypay.ne.jp/v1/qr/sessions", header := [], body := none }

/-- A POST request with the body "null". -/
def stubPost : Request :=
  { method := "POST", url := "https://api.paypay.ne.jp/v1/qr/sessions", header := [],
    body := some (toBytes "null") }

/-- The response of the stub transport to a request with body "null". -/
def stubBadGateway : Response :=
  { statusCode := 502, header := [], body := toBytes "bad gateway" }

/-- A context that has been cancelled. -/
def ctxCancelled : Context := { done := true, err := some "context canceled" }

/-- A context that is still live. -/
def ctxLive : Context := { done := false, err := none }

/-! ## Lemmas on strings and base64 -/

theorem intercalate_go_data (sep : String) (l : List String) (acc : String) :
    (String.intercalate.go acc sep l).data =
      acc.data ++ (l.map (fun x => sep.data ++ x.data)).flatten := by
  induction l generalizing acc with
  | nil => simp [String.intercalate.go]
  | cons a l ih => simp [String.intercalate.go, ih, List.append_assoc]

theorem stringsJoin_data (sep : Char) (l : List String) :
    (stringsJoin l (String.singleton sep)).data = [sep].intercalate (l.map String.data) := by
  cases l with
  | nil => simp [stringsJoin, String.intercalate, List.intercalate]
  | cons a l =>
    simp only [stringsJoin, String.intercalate, intercalate_go_data, List.intercalate,
      List.map_cons]
    induction l generalizing a with
    | nil => simp [List.intersperse]
    | cons b l ih =>
      have h := ih b
      simp only [List.map_cons, List.flatten_cons, List.intersperse_cons_cons] at h ⊢
      rw [← h]
      simp [String.singleton]

theorem stdChar_ne_colon (n : Nat) : stdChar n ≠ ':' := by
  have h : ∀ k, k < 64 → encodeStd.getD k 'A' ≠ ':' := by decide
  exact h (n % 64) (Nat.mod_lt _ (by decide))

theorem encodeChars_no_colon (b : Bytes) : ':' ∉ encodeChars b := by
  induction b using encodeChars.induct with
  | case1 a b c rest ih =>
    simp only [encodeChars, List.mem_cons, not_or]
    exact ⟨(stdChar_ne_colon _).symm, (stdChar_ne_colon _).symm, (stdChar_ne_colon _).symm,
      (stdChar_ne_colon _).symm, ih⟩
  | case2 a b =>
    simp only [encodeChars, List.mem_cons, not_or]
    exact ⟨(stdChar_ne_colon _).symm, (stdChar_ne_colon _).symm, (stdChar_ne_colon _).symm,
      by decide, by simp⟩
  | case3 a =>
    simp only [encodeChars, List.mem_cons, not_or]
    exact ⟨(stdChar_ne_colon _).symm, (stdChar_ne_colon _).symm, by decide, by decide, by simp⟩
  | case4 => simp [encodeChars]

theorem EncodeToString_no_colon (b : Bytes) : ':' ∉ (EncodeToString b).data :=
  encodeChars_no_colon b

/-! ## The Authorization header -/

/-- C1: the header is the scheme, then the api key, the signature, the nonce, the epoch
string and the body hash joined by colons; the signature is the base64 form of the HMAC
under the api secret of the six signing fields joined by line feeds; the content type and
body hash are both "empty" for a body of length 0 and otherwise the content type and the
base64 form of the MD5 digest of content type followed by body. -/
theorem authHeader_layout {U H V T W J : Type} (lib : Lib U H V T W J) (c : Client U H)
    (n t method path ct : String) (body : Bytes) :
    c.authHeader lib n t method path ct body =
      "hmac OPA-Auth:" ++ c.apiKey ++ ":" ++
        EncodeToString (lib.hmacSha256 (toBytes c.apiSecret)
          (toBytes (path ++ "\n" ++ method ++ "\n" ++ n ++ "\n" ++ t ++ "\n" ++
            (if body.length = 0 then "empty" else ct) ++ "\n" ++
            (if body.length = 0 then "empty"
              else EncodeToString (lib.md5 (toBytes ct ++ body)))))) ++
        ":" ++ n ++ ":" ++ t ++ ":" ++
        (if body.length = 0 then "empty"
          else EncodeToString (lib.md5 (toBytes ct ++ body))) := by
  unfold Client.authHeader bodyHash stringsJoin
  by_cases h : body.length = 0
  · simp only [h, if_true, String.intercalate, String.intercalate.go, String.append_assoc]
  · simp only [h, if_false, String.intercalate, String.intercalate.go, String.append_assoc]

theorem bodyHash_no_colon {U H V T W J : Type} (lib : Lib U H V T W J) (ct : String)
    (body : Bytes) : ':' ∉ (bodyHash lib ct body).2.data := by
  unfold bodyHash
  split
  · decide
  · exact EncodeToString_no_colon _

/-- C5, as stated, fails for an api key that holds a colon: with the non-empty key "a:b",
secret "secret" and merchant "merchant", the part of the header after the scheme splits on
the colon into six fields, not five. -/
theorem authHeader_colon_key_counterexample :
    (stubClient "a:b" "secret" "merchant").authHeader stubLib
        "6ba7b810-9dad-11d1-80b4-00c04fd430c8" "1700000000" "POST" "/v1/qr/sessions"
        contentType [] =
      "hmac OPA-Auth:" ++ "a:b:BlA=:6ba7b810-9dad-11d1-80b4-00c04fd430c8:1700000000:empty" ∧
    stringsSplit "a:b:BlA=:6ba7b810-9dad-11d1-80b4-00c04fd430c8:1700000000:empty" ':' =
      ["a", "b", "BlA=", "6ba7b810-9dad-11d1-80b4-00c04fd430c8", "1700000000", "empty"] := by
  decide

/-- C5, amended: when the api key, the nonce and the epoch string hold no colon, the header
is the scheme followed by a remainder that splits on the colon into exactly the five fields
api key, signature, nonce, epoch string and body hash; and the header depends on the client
only through its api key and api secret. -/
theorem authHeader_five_fields {U H V T W J : Type} (lib : Lib U H V T W J) (c : Client U H)
    (n t method path ct : String) (body : Bytes)
    (hk : ':' ∉ c.apiKey.data) (hn : ':' ∉ n.data) (ht : ':' ∉ t.data) :
    (∃ rest : String,
      c.authHeader lib n t method path ct body = "hmac OPA-Auth:" ++ rest ∧
      stringsSplit rest ':' =
        [c.apiKey,
         EncodeToString (lib.hmacSha256 (toBytes c.apiSecret)
           (toBytes (stringsJoin
             [path, method, n, t, (bodyHash lib ct body).1, (bodyHash lib ct body).2] "\n"))),
         n, t, (bodyHash lib ct body).2]) ∧
    (∀ c1 : Client U H, c1.apiKey = c.apiKey → c1.apiSecret = c.apiSecret →
      c1.authHeader lib n t method path ct body = c.authHeader lib n t method path ct body) := by
  refine ⟨⟨_, rfl, ?_⟩, ?_⟩
  · unfold stringsSplit
    rw [show (":" : String) = String.singleton ':' from rfl, stringsJoin_data,
      List.splitOn_intercalate]
    · simp
    · intro l hl
      simp only [List.map_cons, List.map_nil, List.mem_cons, List.mem_singleton,
        List.mem_nil_iff, or_false] at hl
      rcases hl with h | h | h | h | h <;> subst h
      · exact hk
      · exact EncodeToString_no_colon _
      · exact hn
      · exact ht
      · exact bodyHash_no_colon lib ct body
    · simp
  · intro c1 h1 h2
    simp only [Client.authHeader, h1, h2]

/-- C5, amended, at a concrete input. -/
theorem authHeader_five_fields_witness :
    (':' ∉ "a0Zkey".data ∧ ':' ∉ "6ba7b810-9dad-11d1-80b4-00c04fd430c8".data ∧
      ':' ∉ "1700000000".data) ∧
    (∃ rest : String,
      (stubClient "a0Zkey" "secret" "merchant").authHeader stubLib
          "6ba7b810-9dad-11d1-80b4-00c04fd430c8" "1700000000" "POST" "/v1/qr/sessions"
          contentType (toBytes "null") = "hmac OPA-Auth:" ++ rest ∧
      (stringsSplit rest ':').length = 5) := by
  refine ⟨by decide, ?_⟩
  obtain ⟨⟨rest, h1, h2⟩, _⟩ :=
    authHeader_five_fields stubLib (stubClient "a0Zkey" "secret" "merchant")
      "6ba7b810-9dad-11d1-80b4-00c04fd430c8" "1700000000" "POST" "/v1/qr/sessions"
      contentType (toBytes "null") (by decide) (by decide) (by decide)
  exact ⟨rest, h1, by rw [h2]; rfl⟩

/-! ## Construction -/

/-- C3: when the api key, the api secret or the merchant is empty, New returns an error and
no client whatever the options are and leaves the surrounding state as it was, so no option
has run; with no options (and url.Parse accepting the production endpoint) New returns a
client exactly when all three strings are non-empty. -/
theorem New_requires_credentials {U H V T W J S : Type} (lib : Lib U H V T W J)
    (apiKey apiSecret assumeMerchant : String) (u : U)
    (hprod : lib.urlParse APIEndpointProduction = .ok u) :
    ((apiKey = "" ∨ apiSecret = "" ∨ assumeMerchant = "") →
      ∃ err : Error, ∀ (options : List (ClientOption U H S)) (s : S),
        New lib apiKey apiSecret assumeMerchant options s = (.error err, s)) ∧
    (∀ s : S,
      (∃ c : Client U H,
        New lib apiKey apiSecret assumeMerchant ([] : List (ClientOption U H S)) s = (.ok c, s)) ↔
      (apiKey ≠ "" ∧ apiSecret ≠ "" ∧ assumeMerchant ≠ "")) := by
  constructor
  · intro h
    by_cases h1 : apiKey = ""
    · exact ⟨"missing api key", fun options s => by simp [New, h1]⟩
    · by_cases h2 : apiSecret = ""
      · exact ⟨"missing api secret", fun options s => by simp [New, h1, h2]⟩
      · have h3 : assumeMerchant = "" := by tauto
        exact ⟨"missing merchant", fun options s => by simp [New, h1, h2, h3]⟩
  · intro s
    constructor
    · rintro ⟨c, hc⟩
      by_cases h1 : apiKey = ""
      · simp [New, h1] at hc
      · by_cases h2 : apiSecret = ""
        · simp [New, h1, h2] at hc
        · by_cases h3 : assumeMerchant = ""
          · simp [New, h1, h2, h3] at hc
          · exact ⟨h1, h2, h3⟩
    · rintro ⟨h1, h2, h3⟩
      exact ⟨_, by simp [New, h1, h2, h3, runOptions, hprod]; rfl⟩

/-- C3 at concrete inputs: the three failing calls of the specification, with an option that
would change the state, and a succeeding call. -/
theorem New_requires_credentials_witness :
    stubLib.urlParse APIEndpointProduction = .ok "https://api.paypay.ne.jp" ∧
    (∃ err : Error, ∀ (options : List (ClientOption String Unit Nat)) (s : Nat),
      New stubLib "" "secret" "merchant" options s = (.error err, s)) ∧
    (∃ c : Client String Unit,
      New stubLib "key" "secret" "merchant" ([] : List (ClientOption String Unit Nat)) 0 =
        (.ok c, 0)) :=
  ⟨by decide,
    (New_requires_credentials stubLib "" "secret" "merchant" "https://api.paypay.ne.jp"
      (by decide)).1 (Or.inl rfl),
    ((New_requires_credentials stubLib "key" "secret" "merchant" "https://api.paypay.ne.jp"
      (by decide)).2 0).2 (by decide)⟩

theorem runOptions_assumeMerchant {U H S : Type} (options : List (ClientOption U H S))
    (hopt : ∀ o ∈ options, ∀ (c : Client U H) (s : S),
      (o c s).1.2.assumeMerchant = c.assumeMerchant)
    (c c1 : Client U H) (s s1 : S) (h : runOptions options c s = (.ok c1, s1)) :
    c1.assumeMerchant = c.assumeMerchant := by
  induction options generalizing c s with
  | nil =>
    simp only [runOptions, Prod.mk.injEq, Except.ok.injEq] at h
    rw [← h.1]
  | cons o rest ih =>
    have ho := hopt o (List.mem_cons_self _ _) c s
    simp only [runOptions] at h
    split at h
    · simp at h
    · rename_i c2 s2 heq
      rw [heq] at ho
      rw [ih (fun o1 h1 => hopt o1 (List.mem_cons_of_mem _ h1)) c2 s2 h]
      exact ho

theorem WithEndpoint_assumeMerchant {U H V T W J S : Type} (lib : Lib U H V T W J)
    (endpoint : String) (c : Client U H) (s : S) :
    ((WithEndpoint lib endpoint : ClientOption U H S) c s).1.2.assumeMerchant =
      c.assumeMerchant := by
  unfold WithEndpoint
  split <;> rfl

theorem NewRequest_header_without_merchant {U H V T W J : Type} (lib : Lib U H V T W J)
    (c : Client U H) (hc : c.assumeMerchant = "") (n t method path : String) (body : Body V)
    (req : Request) (h : c.NewRequest lib n t method path body = .ok req) :
    req.getHeader "X-ASSUME-MERCHANT" = none := by
  unfold Client.NewRequest at h
  split at h
  · simp at h
  · split at h
    · simp at h
    · split at h
      · simp at h
      · split at h
        · simp at h
        · rename_i req0 hreq
          unfold httpNewRequest at hreq
          split at hreq
          · simp at hreq
          · simp only [Except.ok.injEq] at hreq h
            subst hreq
            subst h
            simp [hc, Request.getHeader, Request.setHeader, List.lookup]

/-- C4 fails on the code: New checks the merchant but never stores it, so for every client
it returns (the options being ones that leave the merchant field alone, as WithHTTPClient,
WithEndpoint and WithSandbox do) the merchant field is empty and no request built by
NewRequest carries the header X-ASSUME-MERCHANT. -/
theorem New_drops_merchant {U H V T W J S : Type} (lib : Lib U H V T W J)
    (apiKey apiSecret merchant : String) (options : List (ClientOption U H S)) (s s1 : S)
    (c : Client U H)
    (hopt : ∀ o ∈ options, ∀ (c : Client U H) (s : S),
      (o c s).1.2.assumeMerchant = c.assumeMerchant)
    (h : New lib apiKey apiSecret merchant options s = (.ok c, s1)) :
    c.assumeMerchant = "" ∧
    ∀ (n t method path : String) (body : Body V) (req : Request),
      c.NewRequest lib n t method path body = .ok req →
      req.getHeader "X-ASSUME-MERCHANT" = none := by
  have hc : c.assumeMerchant = "" := by
    unfold New at h
    split at h
    · simp at h
    · split at h
      · simp at h
      · split at h
        · simp at h
        · simp only at h
          split at h
          · simp at h
          · rename_i c2 s2 hrun
            have h2 := runOptions_assumeMerchant options hopt _ c2 s s2 hrun
            simp only at h2
            split at h
            · simp only [Prod.mk.injEq, Except.ok.injEq] at h
              rw [← h.1, h2]
            · split at h
              · simp at h
              · simp only [Prod.mk.injEq, Except.ok.injEq] at h
                rw [← h.1]
                exact h2
  exact ⟨hc, fun n t method path body req hreq =>
    NewRequest_header_without_merchant lib c hc n t method path body req hreq⟩

/-- C4 at a concrete input: the call of the example program, with merchant "merchant". -/
theorem New_drops_merchant_witness :
    New stubLib "key" "secret" "merchant"
        [(WithSandbox stubLib : ClientOption String Unit Unit)] () =
      (.ok { apiKey := "key", apiSecret := "secret", assumeMerchant := "",
             endpoint := some APIEndpointSandbox, httpClient := () }, ()) ∧
    ∃ req : Request,
      Client.NewRequest stubLib
        { apiKey := "key", apiSecret := "secret", assumeMerchant := "",
          endpoint := some APIEndpointSandbox, httpClient := () }
        "6ba7b810-9dad-11d1-80b4-00c04fd430c8" "1700000000" MethodPost "/v1/qr/sessions"
        (Body.nil : Body CreateAccountLinkQRCodeRequest) = .ok req ∧
      req.getHeader "X-ASSUME-MERCHANT" = none := by
  refine ⟨by decide, _, rfl, ?_⟩
  exact (New_drops_merchant stubLib "key" "secret" "merchant"
    [(WithSandbox stubLib : ClientOption String Unit Unit)] () ()
    { apiKey := "key", apiSecret := "secret", assumeMerchant := "",
      endpoint := some APIEndpointSandbox, httpClient := () }
    (by
      intro o ho c s
      simp only [List.mem_singleton] at ho
      subst ho
      exact WithEndpoint_assumeMerchant stubLib APIEndpointSandbox c s)
    (by decide)).2 "6ba7b810-9dad-11d1-80b4-00c04fd430c8" "1700000000" MethodPost
      "/v1/qr/sessions" Body.nil _ rfl

/-! ## Building a request -/

theorem splitOn_headD_eq_takeWhile (a : Char) (l : List Char) :
    (l.splitOn a).headD [] = l.takeWhile (fun x => x != a) := by
  unfold List.splitOn
  induction l with
  | nil => rfl
  | cons x xs ih =>
    rw [List.splitOnP_cons]
    by_cases hx : x = a
    · simp [hx]
    · have hne := List.splitOnP_ne_nil (fun y => y == a) xs
      cases hs : List.splitOnP (fun y => y == a) xs with
      | nil => exact absurd hs hne
      | cons first more =>
        rw [hs] at ih
        simp only [List.headD_cons] at ih
        simp [hx, List.modifyHead, List.takeWhile_cons, ih]

theorem signingPath_data (path : String) :
    (signingPath path).data = path.data.takeWhile (fun x => x != '?') := by
  unfold signingPath stringsSplit
  rw [← splitOn_headD_eq_takeWhile]
  have hne := List.splitOnP_ne_nil (fun y => y == '?') path.data
  unfold List.splitOn
  cases hs : List.splitOnP (fun y => y == '?') path.data with
  | nil => exact absurd hs hne
  | cons first more => simp

theorem signingPath_no_query (path : String) : '?' ∉ (signingPath path).data := by
  rw [signingPath_data]
  intro h
  have := List.mem_takeWhile_imp h
  simp at this

theorem signingPath_of_no_query (p : String) (hp : '?' ∉ p.data) : signingPath p = p := by
  have h : (signingPath p).data = p.data := by
    rw [signingPath_data, List.takeWhile_eq_self_iff]
    intro x hx
    have : x ≠ '?' := fun hq => hp (hq ▸ hx)
    simpa using this
  cases p
  cases hs : signingPath _
  simp_all

theorem signingPath_with_query (p q : String) (hp : '?' ∉ p.data) :
    signingPath (p ++ "?" ++ q) = p := by
  have h : (signingPath (p ++ "?" ++ q)).data = p.data := by
    rw [signingPath_data]
    have hd : (p ++ "?" ++ q).data = p.data ++ '?' :: q.data := by
      simp [String.data_append]
    rw [hd, List.takeWhile_append_of_pos]
    · simp
    · intro x hx
      have : x ≠ '?' := fun hq => hp (hq ▸ hx)
      simpa using this
  cases p
  cases hs : signingPath _
  simp_all

theorem NewRequest_ok {U H V T W J : Type} (lib : Lib U H V T W J) (c : Client U H)
    (n t method path : String) (body : Body V) (req : Request)
    (h : c.NewRequest lib n t method path body = .ok req) :
    ∃ (p : String) (u : U) (rb : Option Bytes),
      c.dispatchPath lib method path body = .ok p ∧
      lib.urlResolve c.endpoint p = .ok u ∧
      requestBody lib method body = .ok rb ∧
      lib.requestLine method (lib.urlString u) = .ok (req.method, req.url) ∧ req.body = rb ∧
      req.getHeader "Authorization" =
        some (c.authHeader lib n t method (signingPath p) contentType (rb.getD [])) ∧
      req.getHeader "Content-Type" = some contentType := by
  unfold Client.NewRequest at h
  split at h
  · simp at h
  · rename_i p hp
    split at h
    · simp at h
    · rename_i u hu
      split at h
      · simp at h
      · rename_i rb hrb
        split at h
        · simp at h
        · rename_i req0 hreq
          unfold httpNewRequest at hreq
          split at hreq
          · simp at hreq
          · rename_i m0 u0 hline
            simp only [Except.ok.injEq] at hreq h
            subst hreq
            subst h
            refine ⟨p, u, rb, hp, hu, hrb, ?_, ?_, ?_, ?_⟩
            · rw [hline]
              split <;> rfl
            all_goals
              split <;> simp [Request.getHeader, Request.setHeader, List.lookup]

theorem dispatchPath_nil {U H V T W J : Type} (lib : Lib U H V T W J) (c : Client U H)
    (method path : String) : c.dispatchPath lib method path (Body.nil : Body V) = .ok path := by
  unfold Client.dispatchPath
  split <;> simp [Body.isNil]

theorem requestBody_nil {U H V T W J : Type} (lib : Lib U H V T W J) (method : String) :
    requestBody lib method (Body.nil : Body V) = .ok none := by
  unfold requestBody
  split <;> simp [Body.isNil]

theorem NewRequest_nil_body {U H V T W J : Type} (lib : Lib U H V T W J) (c : Client U H)
    (n t method path : String) (req : Request)
    (h : c.NewRequest lib n t method path (Body.nil : Body V) = .ok req) :
    req.body = none ∧
    req.getHeader "Authorization" =
      some (c.authHeader lib n t method (signingPath path) contentType []) := by
  obtain ⟨p, u, rb, hp, _, hrb, _, hbody, hauth, _⟩ :=
    NewRequest_ok lib c n t method path Body.nil req h
  rw [dispatchPath_nil] at hp
  rw [requestBody_nil] at hrb
  simp only [Except.ok.injEq] at hp hrb
  subst hp
  subst hrb
  exact ⟨hbody, hauth⟩

/-- C2: in every request NewRequest builds, method and URL are what net/http stores for the
method and the resolution of the dispatched path (the path after query merging for GET and
DELETE), and the Authorization header is computed over that path cut before its first
question mark, which holds no question mark; in particular, with a nil body, a
path p without question mark and the path p followed by a question mark and any string
are both signed as p. -/
theorem NewRequest_signs_query_free_path {U H V T W J : Type} (lib : Lib U H V T W J)
    (c : Client U H) (n t method : String) :
    (∀ (path : String) (body : Body V) (req : Request),
      c.NewRequest lib n t method path body = .ok req →
      ∃ (p : String) (u : U) (rb : Option Bytes),
        c.dispatchPath lib method path body = .ok p ∧
        lib.urlResolve c.endpoint p = .ok u ∧
        lib.requestLine method (lib.urlString u) = .ok (req.method, req.url) ∧
        requestBody lib method body = .ok rb ∧
        req.getHeader "Authorization" =
          some (c.authHeader lib n t method (signingPath p) contentType (rb.getD [])) ∧
        '?' ∉ (signingPath p).data ∧
        (signingPath p).data = p.data.takeWhile (fun x => x != '?')) ∧
    (∀ (p q : String) (req1 req2 : Request), '?' ∉ p.data →
      c.NewRequest lib n t method p (Body.nil : Body V) = .ok req1 →
      c.NewRequest lib n t method (p ++ "?" ++ q) (Body.nil : Body V) = .ok req2 →
      req1.getHeader "Authorization" =
        some (c.authHeader lib n t method p contentType []) ∧
      req2.getHeader "Authorization" =
        some (c.authHeader lib n t method p contentType [])) := by
  constructor
  · intro path body req h
    obtain ⟨p, u, rb, hp, hu, hrb, hline, _, hauth, _⟩ :=
      NewRequest_ok lib c n t method path body req h
    exact ⟨p, u, rb, hp, hu, hline, hrb, hauth, signingPath_no_query p, signingPath_data p⟩
  · intro p q req1 req2 hp h1 h2
    have a1 := (NewRequest_nil_body lib c n t method p req1 h1).2
    have a2 := (NewRequest_nil_body lib c n t method (p ++ "?" ++ q) req2 h2).2
    rw [signingPath_of_no_query p hp] at a1
    rw [signingPath_with_query p q hp] at a2
    exact ⟨a1, a2⟩

/-- C2 at concrete inputs: a GET request whose merged path carries the query x=1 is
dispatched with the query and signed without it, and the POST requests for
"/v1/qr/sessions" and "/v1/qr/sessions?x=1" carry the same Authorization header. -/
theorem NewRequest_signs_query_free_path_witness :
    (∃ req : Request,
      (stubClient "key" "secret" "merchant").NewRequest stubLib
        "6ba7b810-9dad-11d1-80b4-00c04fd430c8" "1700000000" MethodGet "/v1/qr/sessions"
        (Body.val stubRequest) = .ok req ∧
      req.url = "https://api.paypay.ne.jp/v1/qr/sessions?x=1" ∧
      (stubClient "key" "secret" "merchant").dispatchPath stubLib MethodGet "/v1/qr/sessions"
        (Body.val stubRequest) = .ok "/v1/qr/sessions?x=1" ∧
      signingPath "/v1/qr/sessions?x=1" = "/v1/qr/sessions" ∧
      ∃ (p : String) (u : String) (rb : Option Bytes),
        (stubClient "key" "secret" "merchant").dispatchPath stubLib MethodGet "/v1/qr/sessions"
          (Body.val stubRequest) = .ok p ∧
        stubLib.urlResolve (stubClient "key" "secret" "merchant").endpoint p = .ok u ∧
        stubLib.requestLine MethodGet (stubLib.urlString u) = .ok (req.method, req.url) ∧
        requestBody stubLib MethodGet (Body.val stubRequest) = .ok rb ∧
        req.getHeader "Authorization" =
          some ((stubClient "key" "secret" "merchant").authHeader stubLib
            "6ba7b810-9dad-11d1-80b4-00c04fd430c8" "1700000000" MethodGet (signingPath p)
            contentType (rb.getD [])) ∧
        '?' ∉ (signingPath p).data ∧
        (signingPath p).data = p.data.takeWhile (fun x => x != '?')) ∧
    (∃ req1 req2 : Request,
      (stubClient "key" "secret" "merchant").NewRequest stubLib
        "6ba7b810-9dad-11d1-80b4-00c04fd430c8" "1700000000" MethodPost "/v1/qr/sessions"
        (Body.nil : Body CreateAccountLinkQRCodeRequest) = .ok req1 ∧
      (stubClient "key" "secret" "merchant").NewRequest stubLib
        "6ba7b810-9dad-11d1-80b4-00c04fd430c8" "1700000000" MethodPost
        ("/v1/qr/sessions" ++ "?" ++ "x=1")
        (Body.nil : Body CreateAccountLinkQRCodeRequest) = .ok req2 ∧
      req1.url ≠ req2.url ∧
      req1.getHeader "Authorization" = req2.getHeader "Authorization") := by
  refine ⟨⟨_, rfl, by decide, by decide, by decide, ?_⟩, ⟨_, _, rfl, rfl, by decide, ?_⟩⟩
  · exact (NewRequest_signs_query_free_path stubLib (stubClient "key" "secret" "merchant")
      "6ba7b810-9dad-11d1-80b4-00c04fd430c8" "1700000000" MethodGet).1 "/v1/qr/sessions"
      (Body.val stubRequest) _ rfl
  · have h := (NewRequest_signs_query_free_path stubLib (stubClient "key" "secret" "merchant")
      "6ba7b810-9dad-11d1-80b4-00c04fd430c8" "1700000000" MethodPost).2 "/v1/qr/sessions"
      "x=1" _ _ (by decide) rfl rfl
    rw [h.1, h.2]

theorem dispatchPath_nilPtr {U H V T W J : Type} (lib : Lib U H V T W J) (c : Client U H)
    (method path : String) :
    c.dispatchPath lib method path (Body.nilPtr : Body V) = .ok path := by
  unfold Client.dispatchPath Client.mergeQuery
  split <;> simp [Body.isNil, Body.isNilPtr]

theorem requestBody_read_verbs {U H V T W J : Type} (lib : Lib U H V T W J) (method : String)
    (hm : method = MethodGet ∨ method = MethodDelete) (body : Body V) :
    requestBody lib method body = .ok none := by
  unfold requestBody
  rcases hm with hm | hm <;> subst hm <;> simp [MethodGet, MethodDelete, MethodPost, MethodPut]

theorem requestBody_write_verbs {U H V T W J : Type} (lib : Lib U H V T W J) (method : String)
    (hm : method = MethodPost ∨ method = MethodPut) (body : Body V) :
    requestBody lib method body =
      match body with
      | .nil => .ok none
      | .nilPtr => .ok (some (toBytes "null"))
      | .val v =>
        match lib.marshalValue v with
        | .error err => .error err
        | .ok b => .ok (some b) := by
  unfold requestBody
  rw [if_pos hm]
  cases body <;> simp [Body.isNil, jsonMarshal]

/-- C10: the nil handling of NewRequest differs by verb.  For GET and DELETE a nil pointer
leaves the path unchanged, and whatever the body no body is attached and the signature is
taken over an empty body, for which both sentinels are "empty".  For POST and PUT the nil
interface gives a request without body signed over an empty body, and it is the only body
that does; a nil pointer, which is what CreateAccountLinkQRCode passes for a nil request,
is sent as the four bytes of "null" and signed as a non-empty body with content type
"application/json" and the base64 form of the MD5 digest of "application/json" followed
by "null". -/
theorem NewRequest_nil_handling {U H V T W J : Type} (lib : Lib U H V T W J) (c : Client U H)
    (n t : String) :
    (∀ path : String, c.mergeQuery lib path (Body.nilPtr : Body V) = (path, none)) ∧
    (∀ method : String, method = MethodGet ∨ method = MethodDelete →
      (∀ path : String, c.dispatchPath lib method path (Body.nilPtr : Body V) = .ok path) ∧
      ∀ (path : String) (body : Body V) (req : Request),
        c.NewRequest lib n t method path body = .ok req →
        req.body = none ∧
        ∃ p : String, c.dispatchPath lib method path body = .ok p ∧
          req.getHeader "Authorization" =
            some (c.authHeader lib n t method (signingPath p) contentType [])) ∧
    bodyHash lib contentType [] = ("empty", "empty") ∧
    (∀ method : String, method = MethodPost ∨ method = MethodPut →
      ∀ (path : String) (body : Body V) (req : Request),
        c.NewRequest lib n t method path body = .ok req →
        (req.body = none ↔ body = Body.nil) ∧
        (body = Body.nil →
          req.getHeader "Authorization" =
            some (c.authHeader lib n t method (signingPath path) contentType [])) ∧
        (body = Body.nilPtr →
          req.body = some (toBytes "null") ∧
          req.getHeader "Authorization" =
            some (c.authHeader lib n t method (signingPath path) contentType
              (toBytes "null")))) ∧
    (toBytes "null").length = 4 ∧
    bodyHash lib contentType (toBytes "null") =
      ("application/json",
        EncodeToString (lib.md5 (toBytes "application/json" ++ toBytes "null"))) ∧
    bodyOfPointer none = Body.nilPtr := by
  refine ⟨fun path => by simp [Client.mergeQuery, Body.isNilPtr], ?_, by simp [bodyHash], ?_,
    by decide, ?_, rfl⟩
  · intro method hm
    refine ⟨fun path => dispatchPath_nilPtr lib c method path, ?_⟩
    intro path body req h
    obtain ⟨p, u, rb, hp, _, hrb, _, hbody, hauth, _⟩ :=
      NewRequest_ok lib c n t method path body req h
    rw [requestBody_read_verbs lib method hm] at hrb
    simp only [Except.ok.injEq] at hrb
    subst hrb
    exact ⟨hbody, p, hp, hauth⟩
  · intro method hm path body req h
    obtain ⟨p, u, rb, hp, _, hrb, _, hbody, hauth, _⟩ :=
      NewRequest_ok lib c n t method path body req h
    have hnot : ¬ (method = MethodGet ∨ method = MethodDelete) := by
      rcases hm with hm | hm <;> subst hm <;> decide
    have hp2 : p = path := by
      unfold Client.dispatchPath at hp
      rw [if_neg hnot] at hp
      simpa using hp.symm
    subst hp2
    rw [requestBody_write_verbs lib method hm] at hrb
    cases body with
    | nil =>
      simp only [Except.ok.injEq] at hrb
      subst hrb
      refine ⟨by simp [hbody], fun _ => hauth, ?_⟩
      intro hb
      cases hb
    | nilPtr =>
      simp only [Except.ok.injEq] at hrb
      subst hrb
      refine ⟨by simp [hbody], ?_, fun _ => ⟨hbody, hauth⟩⟩
      intro hb
      cases hb
    | val v =>
      simp only at hrb
      split at hrb
      · simp at hrb
      · simp only [Except.ok.injEq] at hrb
        subst hrb
        refine ⟨by simp [hbody], ?_, ?_⟩ <;>
        · intro hb
          cases hb
  · unfold bodyHash
    rw [if_neg (by decide)]
    rfl

/-- C10 at concrete inputs: the POST request built for a nil request pointer has the body
"null" and is signed over it, and the GET request built for a nil pointer keeps its path
and has no body. -/
theorem NewRequest_nil_handling_witness :
    (∃ req : Request,
      (stubClient "key" "secret" "merchant").NewRequest stubLib
        "6ba7b810-9dad-11d1-80b4-00c04fd430c8" "1700000000" MethodPost "/v1/qr/sessions"
        (bodyOfPointer none) = .ok req ∧
      req.body = some (toBytes "null") ∧
      req.getHeader "Authorization" =
        some ((stubClient "key" "secret" "merchant").authHeader stubLib
          "6ba7b810-9dad-11d1-80b4-00c04fd430c8" "1700000000" MethodPost
          (signingPath "/v1/qr/sessions") contentType (toBytes "null"))) ∧
    (∃ req : Request,
      (stubClient "key" "secret" "merchant").NewRequest stubLib
        "6ba7b810-9dad-11d1-80b4-00c04fd430c8" "1700000000" MethodGet "/v1/qr/sessions"
        (Body.nilPtr : Body CreateAccountLinkQRCodeRequest) = .ok req ∧
      req.url = "https://api.paypay.ne.jp/v1/qr/sessions" ∧
      req.body = none) := by
  have h := NewRequest_nil_handling stubLib (stubClient "key" "secret" "merchant")
    "6ba7b810-9dad-11d1-80b4-00c04fd430c8" "1700000000"
  refine ⟨⟨_, rfl, ?_⟩, ⟨_, rfl, by decide, ?_⟩⟩
  · exact (h.2.2.2.1 MethodPost (Or.inl rfl) "/v1/qr/sessions" Body.nilPtr _ rfl).2.2 rfl
  · exact ((h.2.1 MethodGet (Or.inl rfl)).2 "/v1/qr/sessions" Body.nilPtr _ rfl).1

/-! ## Dispatch -/

/-- C6: when the transport call fails with an error e, Do returns no response, and its
error is the one of the context when the context is done and e itself when it is not. -/
theorem Do_transport_failure {U H V T W J : Type} (lib : Lib U H V T W J) (c : Client U H)
    (ctx : Context) (req : Request) (v : Dest T W) (e : Error)
    (h : lib.clientDo c.httpClient req ctx = .error e) :
    (c.Do lib ctx req v).resp = none ∧
    (ctx.done = true → (c.Do lib ctx req v).err = ctx.err) ∧
    (ctx.done = false → (c.Do lib ctx req v).err = some e) := by
  unfold Client.Do
  rw [h]
  cases hd : ctx.done <;> simp

/-- C6 at concrete inputs: a GET request fails in the stub transport; with a cancelled
context the error is the one of the context, with a live context the transport error. -/
theorem Do_transport_failure_witness :
    stubLib.clientDo () stubGet ctxCancelled = .error "connection refused" ∧
    ((stubClient "key" "secret" "merchant").Do stubLib ctxCancelled stubGet
        (Dest.nil : Dest CreateAccountLinkQRCodeResponse Bytes)).err =
      some "context canceled" ∧
    ((stubClient "key" "secret" "merchant").Do stubLib ctxLive stubGet
        (Dest.nil : Dest CreateAccountLinkQRCodeResponse Bytes)).err =
      some "connection refused" :=
  ⟨by decide,
    (Do_transport_failure stubLib (stubClient "key" "secret" "merchant") ctxCancelled stubGet
      Dest.nil "connection refused" (by decide)).2.1 rfl,
    (Do_transport_failure stubLib (stubClient "key" "secret" "merchant") ctxLive stubGet
      Dest.nil "connection refused" (by decide)).2.2 rfl⟩


theorem Do_decode_failure_general {U H V T W J : Type} (lib : Lib U H V T W J)
    (c : Client U H) (ctx : Context) (req : Request) (r : Response) (t t1 : T) (d : Error)
    (h : lib.clientDo c.httpClient req ctx = .ok r)
    (hd : lib.jsonDecode r t = (t1, some d)) :
    (c.Do lib ctx req (.target t)).resp = some r ∧
    (c.Do lib ctx req (.target t)).err = some d := by
  simp [Client.Do, h, hd]

theorem CreateAccountLinkQRCode_decode_failure {U H W J : Type}
    (lib : Lib U H CreateAccountLinkQRCodeRequest CreateAccountLinkQRCodeResponse W J)
    (c : Client U H) (n t : String) (ctx : Context)
    (req : Option CreateAccountLinkQRCodeRequest) (httpReq : Request) (r : Response)
    (t1 : CreateAccountLinkQRCodeResponse) (d : Error)
    (hreq : c.NewRequest lib n t MethodPost "/v1/qr/sessions" (bodyOfPointer req) = .ok httpReq)
    (h : lib.clientDo c.httpClient httpReq ctx = .ok r)
    (hd : lib.jsonDecode r CreateAccountLinkQRCodeResponse.zero = (t1, some d)) :
    c.CreateAccountLinkQRCode lib n t ctx req = (none, some r, some d) := by
  have hdo := Do_decode_failure_general lib c ctx httpReq r _ t1 d h hd
  unfold Client.CreateAccountLinkQRCode
  rw [hreq]
  simp only [hdo.1, hdo.2]

/-- C7: for every library, client, context, request and decoding target of any type (a
destination that is not nil and not a byte sink), when the exchange succeeds with response
r and decoding the body of r into the target fails with error d, Do returns r together
with d; and when the request CreateAccountLinkQRCode builds is answered by r and the body
of r fails to decode with d, CreateAccountLinkQRCode returns no typed response, the same
r, and d. -/
theorem Do_decode_failure_keeps_response :
    (∀ (U H V T W J : Type) (lib : Lib U H V T W J) (c : Client U H) (ctx : Context)
        (req : Request) (r : Response) (t t1 : T) (d : Error),
      lib.clientDo c.httpClient req ctx = .ok r →
      lib.jsonDecode r t = (t1, some d) →
      (c.Do lib ctx req (.target t)).resp = some r ∧
      (c.Do lib ctx req (.target t)).err = some d) ∧
    (∀ (U H W J : Type)
        (lib : Lib U H CreateAccountLinkQRCodeRequest CreateAccountLinkQRCodeResponse W J)
        (c : Client U H) (n t : String) (ctx : Context)
        (req : Option CreateAccountLinkQRCodeRequest) (httpReq : Request) (r : Response)
        (t1 : CreateAccountLinkQRCodeResponse) (d : Error),
      c.NewRequest lib n t MethodPost "/v1/qr/sessions" (bodyOfPointer req) = .ok httpReq →
      lib.clientDo c.httpClient httpReq ctx = .ok r →
      lib.jsonDecode r CreateAccountLinkQRCodeResponse.zero = (t1, some d) →
      c.CreateAccountLinkQRCode lib n t ctx req = (none, some r, some d)) :=
  ⟨fun _ _ _ _ _ _ lib c ctx req r t t1 d h hd =>
      Do_decode_failure_general lib c ctx req r t t1 d h hd,
    fun _ _ _ _ lib c n t ctx req httpReq r t1 d hreq h hd =>
      CreateAccountLinkQRCode_decode_failure lib c n t ctx req httpReq r t1 d hreq h hd⟩

/-- C7 at concrete inputs: the stub transport answers a request with body "null" by a page
that is not JSON; Do, called on such a request with a decoding target, returns the response
and the decoding error, and so does CreateAccountLinkQRCode for a nil request pointer. -/
theorem Do_decode_failure_keeps_response_witness :
    (stubLib.clientDo () stubPost ctxLive = .ok stubBadGateway ∧
      stubLib.jsonDecode stubBadGateway CreateAccountLinkQRCodeResponse.zero =
        (CreateAccountLinkQRCodeResponse.zero, some "invalid character")) ∧
    (((stubClient "key" "secret" "merchant").Do stubLib ctxLive stubPost
        (Dest.target CreateAccountLinkQRCodeResponse.zero :
          Dest CreateAccountLinkQRCodeResponse Bytes)).resp = some stubBadGateway ∧
      ((stubClient "key" "secret" "merchant").Do stubLib ctxLive stubPost
        (Dest.target CreateAccountLinkQRCodeResponse.zero :
          Dest CreateAccountLinkQRCodeResponse Bytes)).err = some "invalid character") ∧
    (∃ httpReq : Request,
      (stubClient "key" "secret" "merchant").NewRequest stubLib
        "6ba7b810-9dad-11d1-80b4-00c04fd430c8" "1700000000" MethodPost "/v1/qr/sessions"
        (bodyOfPointer none) = .ok httpReq ∧
      stubLib.clientDo () httpReq ctxLive = .ok stubBadGateway) ∧
    (stubClient "key" "secret" "merchant").CreateAccountLinkQRCode stubLib
        "6ba7b810-9dad-11d1-80b4-00c04fd430c8" "1700000000" ctxLive none =
      (none, some stubBadGateway, some "invalid character") :=
  ⟨⟨by decide, by decide⟩,
    Do_decode_failure_keeps_response.1 _ _ _ _ _ _ stubLib (stubClient "key" "secret" "merchant")
      ctxLive stubPost stubBadGateway CreateAccountLinkQRCodeResponse.zero
      CreateAccountLinkQRCodeResponse.zero "invalid character" (by decide) (by decide),
    ⟨_, rfl, by decide⟩,
    Do_decode_failure_keeps_response.2 _ _ _ _ stubLib (stubClient "key" "secret" "merchant")
      "6ba7b810-9dad-11d1-80b4-00c04fd430c8" "1700000000" ctxLive none _ stubBadGateway
      CreateAccountLinkQRCodeResponse.zero "invalid character" rfl (by decide) (by decide)⟩

/-- C8 fails on the code: when the exchange succeeds with response r and the destination is
a byte sink, Do returns r and a nil error whatever io.Copy returned, so a failed copy is
not reported. -/
theorem Do_drops_copy_error {U H V T W J : Type} (lib : Lib U H V T W J) (c : Client U H)
    (ctx : Context) (req : Request) (w : W) (r : Response)
    (h : lib.clientDo c.httpClient req ctx = .ok r) :
    (c.Do lib ctx req (.writer w)).resp = some r ∧
    (c.Do lib ctx req (.writer w)).err = none := by
  unfold Client.Do
  rw [h]
  exact ⟨rfl, rfl⟩

/-- C8 at a concrete input: the copy of a non-empty body fails in the stub library, and Do
still returns the response with a nil error. -/
theorem Do_drops_copy_error_witness :
    stubLib.clientDo () stubPost ctxLive = .ok stubBadGateway ∧
    (stubLib.copy [] stubBadGateway).2 = some "short write" ∧
    ((stubClient "key" "secret" "merchant").Do stubLib ctxLive stubPost
        (Dest.writer [] : Dest CreateAccountLinkQRCodeResponse Bytes)).resp =
      some stubBadGateway ∧
    ((stubClient "key" "secret" "merchant").Do stubLib ctxLive stubPost
        (Dest.writer [] : Dest CreateAccountLinkQRCodeResponse Bytes)).err = none :=
  ⟨by decide, by decide,
    Do_drops_copy_error stubLib (stubClient "key" "secret" "merchant") ctxLive stubPost []
      stubBadGateway (by decide)⟩



/-! ## Callback tokens -/

theorem ParseResponseToken_segments {U H V T W J : Type} (lib : Lib U H V T W J)
    (c : Client U H) (now : Int) (tok header claims signature alg : String)
    (headerBytes claimBytes : Bytes) (decoded : J) (mac : Bytes → Bytes → Bytes)
    (r : ResponseToken)
    (hsplit : stringsSplit tok '.' = [header, claims, signature])
    (hheader : DecodeSegment header = .ok headerBytes)
    (hjson : lib.jsonHeader headerBytes = .ok decoded)
    (halg : lib.headerAlg decoded = some alg)
    (hmac : lib.tokenMac alg = some mac)
    (hclaims : DecodeSegment claims = .ok claimBytes)
    (hr : lib.jsonClaims claimBytes = .ok r) :
    c.ParseResponseToken lib now tok =
      match DecodeString c.apiSecret with
      | .error err => .error err
      | .ok key =>
        match verifySignature mac key header claims signature with
        | some err => .error err
        | none =>
          if claimsInWindow now r.standardClaims then .ok r
          else .error "token is expired or not valid yet" := by
  simp only [Client.ParseResponseToken, jwtParseWithClaims, hsplit, hheader, hjson, halg, hmac,
    hclaims, hr]

/-- C9, as stated, fails for a second secret that decodes to the same key: the decoder
skips line feeds, so the distinct secrets "QQ==" and "QQ==" followed by a line feed both
give the one-byte key 65, and whatever the library functions are, a client with the second
secret parses every token exactly as a client with the first; in the stub library the token
signed with that key is accepted under both. -/
theorem ParseResponseToken_other_secret_counterexample :
    "QQ==\n" ≠ "QQ==" ∧
    DecodeString "QQ==" = .ok [65] ∧
    DecodeString "QQ==\n" = .ok [65] ∧
    (stubClient "key" "QQ==" "merchant").ParseResponseToken stubLib 1700000000 "e30.e30.AQc" =
      .ok stubClaims ∧
    (stubClient "key" "QQ==\n" "merchant").ParseResponseToken stubLib 1700000000
      "e30.e30.AQc" = .ok stubClaims ∧
    (∀ (U H V T W J : Type) (lib : Lib U H V T W J) (c c1 : Client U H) (now : Int)
        (tok : String),
      c.apiSecret = "QQ==" → c1.apiSecret = "QQ==\n" →
      c1.ParseResponseToken lib now tok = c.ParseResponseToken lib now tok) := by
  refine ⟨by decide, by decide, by decide, by decide, by decide, ?_⟩
  intro U H V T W J lib c c1 now tok h h1
  have e : DecodeString "QQ==\n" = DecodeString "QQ==" := by decide
  simp only [Client.ParseResponseToken, h, h1, e]

/-- C9, amended: let the api secret of the client decode from base64 to a key, and let the
token be well-formed (three segments, header and claims decoding from base64url and JSON,
the header declaring an algorithm that verifies with a key of bytes), unexpired (its
standard claims in their time window) and signed with that key (the signature segment
decodes to the MAC under the key of header, dot, claims).  Then ParseResponseToken succeeds
and returns the claims decoded from the claims segment, all domain claims included.  A
client whose secret decodes to the same key gets the same result; a client whose secret is
not valid base64, or decodes to a key whose MAC of header, dot, claims differs, gets an
error. -/
theorem ParseResponseToken_signed_token {U H V T W J : Type} (lib : Lib U H V T W J)
    (c : Client U H) (now : Int) (tok header claims signature alg : String)
    (headerBytes claimBytes key : Bytes) (decoded : J) (mac : Bytes → Bytes → Bytes)
    (r : ResponseToken)
    (hsplit : stringsSplit tok '.' = [header, claims, signature])
    (hheader : DecodeSegment header = .ok headerBytes)
    (hjson : lib.jsonHeader headerBytes = .ok decoded)
    (halg : lib.headerAlg decoded = some alg)
    (hmac : lib.tokenMac alg = some mac)
    (hclaims : DecodeSegment claims = .ok claimBytes)
    (hr : lib.jsonClaims claimBytes = .ok r)
    (hwindow : claimsInWindow now r.standardClaims = true)
    (hkey : DecodeString c.apiSecret = .ok key)
    (hsigned : DecodeSegment signature = .ok (mac key (toBytes (header ++ "." ++ claims)))) :
    c.ParseResponseToken lib now tok = .ok r ∧
    (∀ c1 : Client U H, DecodeString c1.apiSecret = .ok key →
      c1.ParseResponseToken lib now tok = .ok r) ∧
    (∀ (c1 : Client U H) (e : Error), DecodeString c1.apiSecret = .error e →
      c1.ParseResponseToken lib now tok = .error e) ∧
    (∀ (c1 : Client U H) (key1 : Bytes), DecodeString c1.apiSecret = .ok key1 →
      mac key1 (toBytes (header ++ "." ++ claims)) ≠
        mac key (toBytes (header ++ "." ++ claims)) →
      c1.ParseResponseToken lib now tok = .error "signature is invalid") := by
  have hseg := fun c1 : Client U H =>
    ParseResponseToken_segments lib c1 now tok header claims signature alg headerBytes
      claimBytes decoded mac r hsplit hheader hjson halg hmac hclaims hr
  have hsame : ∀ c1 : Client U H, DecodeString c1.apiSecret = .ok key →
      c1.ParseResponseToken lib now tok = .ok r := by
    intro c1 h1
    rw [hseg c1, h1]
    simp [verifySignature, hsigned, hwindow]
  refine ⟨hsame c hkey, hsame, ?_, ?_⟩
  · intro c1 e h1
    rw [hseg c1, h1]
  · intro c1 key1 h1 hne
    rw [hseg c1, h1]
    have hne1 : ¬ mac key (toBytes (header ++ "." ++ claims)) =
        mac key1 (toBytes (header ++ "." ++ claims)) := fun h => hne h.symm
    simp [verifySignature, hsigned, hne1]

/-- C9, amended, at concrete inputs: the token "e30.e30.AQc" is signed in the stub library
with the key of the secret "QQ=="; under that secret all five domain claims come back; the
secret "QQ" is not valid base64 and the secret "QUI=" decodes to a key with another MAC,
and both fail. -/
theorem ParseResponseToken_signed_token_witness :
    (stringsSplit "e30.e30.AQc" '.' = ["e30", "e30", "AQc"] ∧
      DecodeSegment "e30" = .ok (toBytes "{}") ∧
      claimsInWindow 1700000000 stubClaims.standardClaims = true ∧
      DecodeString "QQ==" = .ok [65] ∧
      DecodeSegment "AQc" = .ok [1, 7]) ∧
    (stubClient "key" "QQ==" "merchant").ParseResponseToken stubLib 1700000000 "e30.e30.AQc" =
      .ok stubClaims ∧
    (stubClaims.result, stubClaims.profileIdentifier, stubClaims.nonce,
      stubClaims.userAuthorizationID, stubClaims.referenceID) =
      ("succeeded", "*******5678", "n-1", "ua-1", "ref-1") ∧
    (stubClient "key" "QQ" "merchant").ParseResponseToken stubLib 1700000000 "e30.e30.AQc" =
      .error corruptInput ∧
    (stubClient "key" "QUI=" "merchant").ParseResponseToken stubLib 1700000000 "e30.e30.AQc" =
      .error "signature is invalid" := by
  have h := ParseResponseToken_signed_token stubLib (stubClient "key" "QQ==" "merchant")
    1700000000 "e30.e30.AQc" "e30" "e30" "AQc" "HS256" (toBytes "{}") (toBytes "{}") [65]
    "HS256" (fun k m => [UInt8.ofNat k.length, UInt8.ofNat m.length]) stubClaims
    (by decide) (by decide) (by decide) (by decide) rfl (by decide) (by decide)
    (by decide) (by decide) (by decide)
  exact ⟨⟨by decide, by decide, by decide, by decide, by decide⟩, h.1, by decide,
    h.2.2.1 (stubClient "key" "QQ" "merchant") corruptInput (by decide),
    h.2.2.2 (stubClient "key" "QUI=" "merchant") [65, 66] (by decide) (by decide)⟩

end paypay
